import Mathlib

/-!
Shallow embedding of `colour_analysis/analysis.py` (class `Analysis`):
the colour-space cycling sequences, the attribute setters and their
validation, the key-chord action dispatch, the layout engine and the
construction-time image pipeline.  The external colour-space registries
(`RGB_COLOURSPACES` from the `colour` library, `REFERENCE_COLOURSPACES`
from `colour_analysis.utilities.common`, whose source is not part of the
analysed tree) are modelled abstractly as lists of names, the reference
one per the spec as an ordered registry of named colour spaces.
-/

namespace ColourAnalysis

/-- Lexicographic comparison of character lists by code point, the
order Python string comparison uses. -/
def charListLe : List Char → List Char → Bool
  | [], _ => true
  | _ :: _, [] => false
  | a :: as, b :: bs =>
    if a.toNat < b.toNat then true
    else if b.toNat < a.toNat then false
    else charListLe as bs

/-- Lexicographic string comparison by code point. -/
def stringLe (a b : String) : Bool :=
  charListLe a.data b.data

/-- Python `sorted` on strings: insertion sort by the lexicographic
order (stable, and on strings it agrees with any correct sort). -/
def insertSorted (x : String) : List String → List String
  | [] => [x]
  | y :: ys => if stringLe x y then x :: y :: ys else y :: insertSorted x ys

/-- Python `sorted(list_of_strings)`. -/
def sortStrings (l : List String) : List String :=
  l.foldr insertSorted []

/-- The fixed exclusion set of `Analysis.__init__`
(`('aces', 'adobe1998', 'prophoto')`, analysis.py line 104). -/
def EXCLUDED_COLOURSPACES : List String :=
  ["aces", "adobe1998", "prophoto"]

/-- The eligible candidate list of the correlate cycle:
`[c for c in sorted(RGB_COLOURSPACES) if c not in ('aces', 'adobe1998', 'prophoto')]`
(analysis.py lines 102-104), with the registry given as its key list. -/
def eligibleCorrelates (registry : List String) : List String :=
  (sortStrings registry).filter (fun c => !(EXCLUDED_COLOURSPACES.contains c))

/-- State of a Python `itertools.cycle` iterator over a string list:
the snapshot of the iterable and the number of `next` calls made. -/
structure Cycle where
  elems : List String
  pos : Nat
  deriving Repr, DecidableEq

/-- Python `next` on an `itertools.cycle` iterator: yields the element
at the current position modulo the length and advances; on an empty
iterable the iterator is exhausted (`StopIteration`), modelled as
`none`. -/
def Cycle.next (c : Cycle) : Option (String × Cycle) :=
  match c.elems.get? (c.pos % c.elems.length) with
  | none => none
  | some v => some (v, ⟨c.elems, c.pos + 1⟩)

/-- The correlate cycle as constructed by `Analysis.__init__`
(analysis.py lines 102-104): an `itertools.cycle` over the eligible
candidates, starting at the head of the sorted eligible list. -/
def mkCorrelateCycle (registry : List String) : Cycle :=
  ⟨eligibleCorrelates registry, 0⟩

/-- The reference cycle as constructed by `Analysis.__init__`
(analysis.py lines 106-110): a deque of `REFERENCE_COLOURSPACES`
rotated left by `index(reference_colourspace) + 1`, then cycled.
Python `deque.rotate(-k)` is `List.rotate · k`. -/
def mkReferenceCycle (refs : List String) (reference : String) : Cycle :=
  ⟨refs.rotate (refs.indexOf reference + 1), 0⟩

/-- Slice of the coordinator state touched by
`cycle_correlate_colourspace_action` (analysis.py lines 681-687):
the private `correlate_colourspace` field, the cycle iterator and the
`correlate_colourspace` properties pushed to the gamut and image
views. -/
structure CorrelateState where
  correlate_colourspace : Option String
  cycle : Cycle
  gamut_correlate : Option String
  image_correlate : Option String
  deriving Repr, DecidableEq

/-- `Analysis.cycle_correlate_colourspace_action`: advance the cycle,
assign the private field directly, push the value to the gamut and
image views, return `True`.  `none` models the `StopIteration` that
`next` raises on an empty cycle. -/
def cycle_correlate_colourspace_action (s : CorrelateState) :
    Option (CorrelateState × Bool) :=
  match s.cycle.next with
  | none => none
  | some (v, c) => some (⟨some v, c, some v, some v⟩, true)

/-- Coordinator state right after `Analysis.__init__` for the fields
`cycle_correlate_colourspace_action` touches: the constructor-supplied
correlate colour space (validated by its setter beforehand) has been
pushed to the views, and the cycle is fresh. -/
def initCorrelateState (registry : List String) (correlate : String) :
    CorrelateState :=
  ⟨some correlate, mkCorrelateCycle registry, some correlate, some correlate⟩

/-- Iterated invocation of `cycle_correlate_colourspace_action`. -/
def iterCorrelate : Nat → CorrelateState → Option CorrelateState
  | 0, s => some s
  | k + 1, s =>
    match cycle_correlate_colourspace_action s with
    | none => none
    | some (s1, _) => iterCorrelate k s1

/-- Slice of the coordinator state touched by
`cycle_reference_colourspace_action` (analysis.py lines 689-695). -/
structure ReferenceState where
  reference_colourspace : Option String
  cycle : Cycle
  gamut_reference : Option String
  deriving Repr, DecidableEq

/-- `Analysis.cycle_reference_colourspace_action`: advance the cycle,
assign the private field, push the value to the gamut view, return
`True`. -/
def cycle_reference_colourspace_action (s : ReferenceState) :
    Option (ReferenceState × Bool) :=
  match s.cycle.next with
  | none => none
  | some (v, c) => some (⟨some v, c, some v⟩, true)

/-- Coordinator state right after `Analysis.__init__` for the fields
`cycle_reference_colourspace_action` touches. -/
def initReferenceState (refs : List String) (reference : String) :
    ReferenceState :=
  ⟨some reference, mkReferenceCycle refs reference, some reference⟩

/-- Iterated invocation of `cycle_reference_colourspace_action`. -/
def iterReference : Nat → ReferenceState → Option ReferenceState
  | 0, s => some s
  | k + 1, s =>
    match cycle_reference_colourspace_action s with
    | none => none
    | some (s1, _) => iterReference k s1

/-- The list of values yielded by `k` successive `next` calls on a
cycle iterator, together with the final iterator state. -/
def cycleTrace : Nat → Cycle → Option (List String × Cycle)
  | 0, c => some ([], c)
  | k + 1, c =>
    match c.next with
    | none => none
    | some (v, c1) =>
      match cycleTrace k c1 with
      | none => none
      | some (t, c2) => some (v :: t, c2)

theorem Cycle.next_of_ne_nil {E : List String} (hE : E ≠ []) (p : Nat) :
    Cycle.next ⟨E, p⟩ = some (E.getD (p % E.length) "", ⟨E, p + 1⟩) := by
  have hlen : 0 < E.length := List.length_pos.mpr hE
  have hlt : p % E.length < E.length := Nat.mod_lt _ hlen
  simp only [Cycle.next]
  rw [List.get?_eq_getElem?, List.getElem?_eq_getElem hlt]
  simp [List.getD, List.get?_eq_getElem?, List.getElem?_eq_getElem hlt]

theorem iterCorrelate_succ (k : Nat) (s : CorrelateState) :
    iterCorrelate (k + 1) s =
      match cycle_correlate_colourspace_action s with
      | none => none
      | some (s1, _) => iterCorrelate k s1 := rfl

theorem iterCorrelate_spec {E : List String} (hE : E ≠ []) :
    ∀ (k p : Nat) (c g i : Option String),
      iterCorrelate (k + 1) ⟨c, ⟨E, p⟩, g, i⟩ =
        some ⟨some (E.getD ((p + k) % E.length) ""), ⟨E, p + k + 1⟩,
              some (E.getD ((p + k) % E.length) ""),
              some (E.getD ((p + k) % E.length) "")⟩ := by
  intro k
  induction k with
  | zero =>
    intro p c g i
    simp [iterCorrelate, cycle_correlate_colourspace_action,
      Cycle.next_of_ne_nil hE]
  | succ k ih =>
    intro p c g i
    rw [iterCorrelate_succ]
    simp only [cycle_correlate_colourspace_action, Cycle.next_of_ne_nil hE]
    rw [ih (p + 1) _ _ _]
    have h2 : p + 1 + k = p + (k + 1) := by omega
    rw [h2]

theorem iterReference_succ (k : Nat) (s : ReferenceState) :
    iterReference (k + 1) s =
      match cycle_reference_colourspace_action s with
      | none => none
      | some (s1, _) => iterReference k s1 := rfl

theorem iterReference_spec {E : List String} (hE : E ≠ []) :
    ∀ (k p : Nat) (r g : Option String),
      iterReference (k + 1) ⟨r, ⟨E, p⟩, g⟩ =
        some ⟨some (E.getD ((p + k) % E.length) ""), ⟨E, p + k + 1⟩,
              some (E.getD ((p + k) % E.length) "")⟩ := by
  intro k
  induction k with
  | zero =>
    intro p r g
    simp [iterReference, cycle_reference_colourspace_action,
      Cycle.next_of_ne_nil hE]
  | succ k ih =>
    intro p r g
    rw [iterReference_succ]
    simp only [cycle_reference_colourspace_action, Cycle.next_of_ne_nil hE]
    rw [ih (p + 1) _ _]
    have h2 : p + 1 + k = p + (k + 1) := by omega
    rw [h2]

theorem map_getD_range (E : List String) (d : String) :
    (List.range E.length).map (fun j => E.getD j d) = E := by
  induction E with
  | nil => simp
  | cons x xs ih =>
    rw [List.length_cons, List.range_succ_eq_map, List.map_cons,
      List.map_map]
    have h1 : (List.range xs.length).map
          ((fun j => (x :: xs).getD j d) ∘ Nat.succ)
        = (List.range xs.length).map (fun j => xs.getD j d) := by
      apply List.map_congr_left
      intro a _
      simp [List.getD_cons_succ]
    rw [h1, ih, List.getD_cons_zero]

theorem cycleTrace_spec {E : List String} (hE : E ≠ []) :
    ∀ (k p : Nat),
      cycleTrace k ⟨E, p⟩ =
        some ((List.range k).map (fun j => E.getD ((p + j) % E.length) ""),
              ⟨E, p + k⟩) := by
  intro k
  induction k with
  | zero => intro p; simp [cycleTrace]
  | succ k ih =>
    intro p
    have hv : (fun j => E.getD ((p + j) % E.length) "") ∘ Nat.succ
        = fun j => E.getD ((p + 1 + j) % E.length) "" := by
      funext j
      simp only [Function.comp_apply]
      congr 2
      omega
    simp only [cycleTrace, Cycle.next_of_ne_nil hE, ih (p + 1)]
    rw [List.range_succ_eq_map, List.map_cons, List.map_map, hv]
    have h2 : p + 1 + k = p + (k + 1) := by omega
    rw [h2]
    simp

theorem cycleTrace_full {E : List String} (hE : E ≠ []) :
    cycleTrace E.length ⟨E, 0⟩ = some (E, ⟨E, E.length⟩) := by
  rw [cycleTrace_spec hE E.length 0]
  have h1 : (List.range E.length).map
        (fun j => E.getD ((0 + j) % E.length) "") = E := by
    have h2 : (List.range E.length).map
          (fun j => E.getD ((0 + j) % E.length) "")
        = (List.range E.length).map (fun j => E.getD j "") := by
      apply List.map_congr_left
      intro a ha
      have ha2 : a < E.length := List.mem_range.mp ha
      rw [Nat.zero_add, Nat.mod_eq_of_lt ha2]
    rw [h2, map_getD_range]
  rw [h1, Nat.zero_add]

/-- C1 counterexample: with registry `["Rec. 709", "ACEScg", "sRGB"]`
(no exclusions apply, so N = 3 eligible candidates) and
constructor-supplied correlate colour space `"ACEScg"`, invoking
`cycle_correlate_colourspace_action` 3 times leaves the
`correlate_colourspace` field at `"sRGB"`, not at the original
`"ACEScg"`: the cycle is anchored at the head of the sorted eligible
list, not at the initial selection. -/
theorem C1_counterexample :
    (eligibleCorrelates ["Rec. 709", "ACEScg", "sRGB"]).length = 3 ∧
    (iterCorrelate 3
        (initCorrelateState ["Rec. 709", "ACEScg", "sRGB"] "ACEScg")).map
      CorrelateState.correlate_colourspace = some (some "sRGB") ∧
    some "sRGB" ≠ some "ACEScg" := by
  refine ⟨by decide, by decide, by decide⟩

/-- C1 (amended): the correlate cycling sequence over the N eligible
candidates is a total wrap-around permutation of period N, but it is
anchored at the head of the sorted eligible candidate list, not at the
constructor-supplied selection: the (k+1)-th invocation of
`cycle_correlate_colourspace_action` sets `correlate_colourspace` to
the (k mod N)-th eligible candidate (and pushes it to the gamut and
image views), so after N invocations the field holds the last eligible
candidate, which equals the original selection only when that selection
is last in the sorted eligible list. -/
theorem C1_amended (registry : List String) (correlate : String) (k : Nat)
    (hE : eligibleCorrelates registry ≠ []) :
    iterCorrelate (k + 1) (initCorrelateState registry correlate) =
      some ⟨some ((eligibleCorrelates registry).getD
              (k % (eligibleCorrelates registry).length) ""),
            ⟨eligibleCorrelates registry, k + 1⟩,
            some ((eligibleCorrelates registry).getD
              (k % (eligibleCorrelates registry).length) ""),
            some ((eligibleCorrelates registry).getD
              (k % (eligibleCorrelates registry).length) "")⟩
    ∧ iterCorrelate (eligibleCorrelates registry).length
        (initCorrelateState registry correlate) =
      some ⟨some ((eligibleCorrelates registry).getD
              ((eligibleCorrelates registry).length - 1) ""),
            ⟨eligibleCorrelates registry,
             (eligibleCorrelates registry).length⟩,
            some ((eligibleCorrelates registry).getD
              ((eligibleCorrelates registry).length - 1) ""),
            some ((eligibleCorrelates registry).getD
              ((eligibleCorrelates registry).length - 1) "")⟩ := by
  have hN : 0 < (eligibleCorrelates registry).length :=
    List.length_pos.mpr hE
  constructor
  · have h := iterCorrelate_spec hE k 0 (some correlate) (some correlate)
      (some correlate)
    rw [Nat.zero_add] at h
    exact h
  · have h := iterCorrelate_spec hE
      ((eligibleCorrelates registry).length - 1) 0 (some correlate)
      (some correlate) (some correlate)
    rw [Nat.zero_add] at h
    have h1 : (eligibleCorrelates registry).length - 1 + 1 =
        (eligibleCorrelates registry).length := by omega
    have h2 : ((eligibleCorrelates registry).length - 1) %
          (eligibleCorrelates registry).length =
        (eligibleCorrelates registry).length - 1 :=
      Nat.mod_eq_of_lt (by omega)
    rw [h1, h2] at h
    exact h

/-- C1 witness: the amended theorem instantiated at the concrete
registry `["Rec. 709", "ACEScg", "sRGB"]`, initial correlate
`"ACEScg"` and k = 1. -/
theorem C1_witness :
    eligibleCorrelates ["Rec. 709", "ACEScg", "sRGB"] ≠ [] ∧
    (iterCorrelate (1 + 1)
        (initCorrelateState ["Rec. 709", "ACEScg", "sRGB"] "ACEScg") =
      some ⟨some ((eligibleCorrelates ["Rec. 709", "ACEScg", "sRGB"]).getD
              (1 % (eligibleCorrelates
                ["Rec. 709", "ACEScg", "sRGB"]).length) ""),
            ⟨eligibleCorrelates ["Rec. 709", "ACEScg", "sRGB"], 1 + 1⟩,
            some ((eligibleCorrelates ["Rec. 709", "ACEScg", "sRGB"]).getD
              (1 % (eligibleCorrelates
                ["Rec. 709", "ACEScg", "sRGB"]).length) ""),
            some ((eligibleCorrelates ["Rec. 709", "ACEScg", "sRGB"]).getD
              (1 % (eligibleCorrelates
                ["Rec. 709", "ACEScg", "sRGB"]).length) "")⟩
    ∧ iterCorrelate
        (eligibleCorrelates ["Rec. 709", "ACEScg", "sRGB"]).length
        (initCorrelateState ["Rec. 709", "ACEScg", "sRGB"] "ACEScg") =
      some ⟨some ((eligibleCorrelates ["Rec. 709", "ACEScg", "sRGB"]).getD
              ((eligibleCorrelates
                ["Rec. 709", "ACEScg", "sRGB"]).length - 1) ""),
            ⟨eligibleCorrelates ["Rec. 709", "ACEScg", "sRGB"],
             (eligibleCorrelates ["Rec. 709", "ACEScg", "sRGB"]).length⟩,
            some ((eligibleCorrelates ["Rec. 709", "ACEScg", "sRGB"]).getD
              ((eligibleCorrelates
                ["Rec. 709", "ACEScg", "sRGB"]).length - 1) ""),
            some ((eligibleCorrelates ["Rec. 709", "ACEScg", "sRGB"]).getD
              ((eligibleCorrelates
                ["Rec. 709", "ACEScg", "sRGB"]).length - 1) "")⟩) :=
  ⟨by decide,
   C1_amended ["Rec. 709", "ACEScg", "sRGB"] "ACEScg" 1 (by decide)⟩

/-- C2: for every initial reference colour space r present in a
duplicate-free reference registry refs of size N, the first invocation
of `cycle_reference_colourspace_action` yields the space immediately
following r in the registry's canonical order (wrapping), the N
successive invocations yield the rotated registry — a duplicate-free
permutation of the registry, so every other space is visited exactly
once — and the N-th invocation returns the `reference_colourspace`
field to r. -/
theorem C2_reference_cycle (refs : List String) (r : String)
    (hr : r ∈ refs) (hnd : refs.Nodup) :
    iterReference 1 (initReferenceState refs r) =
      some ⟨some (refs.getD ((refs.indexOf r + 1) % refs.length) ""),
            ⟨refs.rotate (refs.indexOf r + 1), 1⟩,
            some (refs.getD ((refs.indexOf r + 1) % refs.length) "")⟩
    ∧ cycleTrace refs.length (mkReferenceCycle refs r) =
        some (refs.rotate (refs.indexOf r + 1),
              ⟨refs.rotate (refs.indexOf r + 1), refs.length⟩)
    ∧ (refs.rotate (refs.indexOf r + 1)).Perm refs
    ∧ (refs.rotate (refs.indexOf r + 1)).Nodup
    ∧ iterReference refs.length (initReferenceState refs r) =
        some ⟨some r, ⟨refs.rotate (refs.indexOf r + 1), refs.length⟩,
              some r⟩ := by
  have hne : refs ≠ [] := List.ne_nil_of_mem hr
  have hNpos : 0 < refs.length := List.length_pos.mpr hne
  have hi : refs.indexOf r < refs.length := List.indexOf_lt_length.mpr hr
  have hRlen : (refs.rotate (refs.indexOf r + 1)).length = refs.length :=
    List.length_rotate refs _
  have hR : refs.rotate (refs.indexOf r + 1) ≠ [] := by
    intro hcontra
    rw [hcontra] at hRlen
    simp at hRlen
    omega
  refine ⟨?_, ?_, List.rotate_perm refs _, ?_, ?_⟩
  · have h := iterReference_spec hR 0 0 (some r) (some r)
    rw [Nat.zero_add] at h
    have hv : (refs.rotate (refs.indexOf r + 1)).getD
          (0 % (refs.rotate (refs.indexOf r + 1)).length) "" =
        refs.getD ((refs.indexOf r + 1) % refs.length) "" := by
      rw [Nat.zero_mod]
      have h0 : 0 < (refs.rotate (refs.indexOf r + 1)).length := by
        rw [hRlen]; exact hNpos
      rw [List.getD_eq_getElem _ _ h0,
        List.getD_eq_getElem _ _ (Nat.mod_lt _ hNpos)]
      have hg := List.get_rotate refs (refs.indexOf r + 1) ⟨0, h0⟩
      simp only [List.get_eq_getElem] at hg
      rw [hg, Nat.zero_add]
    rw [hv] at h
    exact h
  · have h := cycleTrace_full hR
    rw [hRlen] at h
    exact h
  · exact (List.rotate_perm refs _).symm.nodup hnd
  · have h := iterReference_spec hR (refs.length - 1) 0 (some r) (some r)
    rw [Nat.zero_add] at h
    have h1 : refs.length - 1 + 1 = refs.length := by omega
    have h2 : (refs.length - 1) % (refs.rotate (refs.indexOf r + 1)).length
        = refs.length - 1 := by
      rw [hRlen]
      exact Nat.mod_eq_of_lt (by omega)
    have hv : (refs.rotate (refs.indexOf r + 1)).getD (refs.length - 1) ""
        = r := by
      have hlt : refs.length - 1 < (refs.rotate (refs.indexOf r + 1)).length
        := by rw [hRlen]; omega
      rw [List.getD_eq_getElem _ _ hlt]
      have hg := List.get_rotate refs (refs.indexOf r + 1)
        ⟨refs.length - 1, hlt⟩
      simp only [List.get_eq_getElem] at hg
      rw [hg]
      have h3 : (refs.length - 1 + (refs.indexOf r + 1)) % refs.length =
          refs.indexOf r := by
        have h4 : refs.length - 1 + (refs.indexOf r + 1) =
            refs.length + refs.indexOf r := by omega
        rw [h4, Nat.add_mod_left]
        exact Nat.mod_eq_of_lt hi
      simp only [h3]
      have h5 := List.indexOf_get (a := r) (l := refs) hi
      simp only [List.get_eq_getElem] at h5
      exact h5
    rw [h1, h2, hv] at h
    exact h

/-- C2 witness: the theorem instantiated at the concrete reference
registry `["CIE XYZ", "CIE xyY", "CIE Lab"]` with initial selection
`"CIE xyY"`. -/
theorem C2_witness :
    ("CIE xyY" ∈ ["CIE XYZ", "CIE xyY", "CIE Lab"] ∧
     (["CIE XYZ", "CIE xyY", "CIE Lab"] : List String).Nodup) ∧
    (iterReference 1
        (initReferenceState ["CIE XYZ", "CIE xyY", "CIE Lab"] "CIE xyY") =
      some ⟨some ((["CIE XYZ", "CIE xyY", "CIE Lab"] : List String).getD
              (((["CIE XYZ", "CIE xyY", "CIE Lab"] : List String).indexOf
                  "CIE xyY" + 1) %
                (["CIE XYZ", "CIE xyY", "CIE Lab"] : List String).length) ""),
            ⟨(["CIE XYZ", "CIE xyY", "CIE Lab"] : List String).rotate
              ((["CIE XYZ", "CIE xyY", "CIE Lab"] : List String).indexOf
                "CIE xyY" + 1), 1⟩,
            some ((["CIE XYZ", "CIE xyY", "CIE Lab"] : List String).getD
              (((["CIE XYZ", "CIE xyY", "CIE Lab"] : List String).indexOf
                  "CIE xyY" + 1) %
                (["CIE XYZ", "CIE xyY", "CIE Lab"] : List String).length) "")⟩
    ∧ cycleTrace (["CIE XYZ", "CIE xyY", "CIE Lab"] : List String).length
        (mkReferenceCycle ["CIE XYZ", "CIE xyY", "CIE Lab"] "CIE xyY") =
        some ((["CIE XYZ", "CIE xyY", "CIE Lab"] : List String).rotate
                ((["CIE XYZ", "CIE xyY", "CIE Lab"] : List String).indexOf
                  "CIE xyY" + 1),
              ⟨(["CIE XYZ", "CIE xyY", "CIE Lab"] : List String).rotate
                ((["CIE XYZ", "CIE xyY", "CIE Lab"] : List String).indexOf
                  "CIE xyY" + 1),
               (["CIE XYZ", "CIE xyY", "CIE Lab"] : List String).length⟩)
    ∧ ((["CIE XYZ", "CIE xyY", "CIE Lab"] : List String).rotate
        ((["CIE XYZ", "CIE xyY", "CIE Lab"] : List String).indexOf
          "CIE xyY" + 1)).Perm ["CIE XYZ", "CIE xyY", "CIE Lab"]
    ∧ ((["CIE XYZ", "CIE xyY", "CIE Lab"] : List String).rotate
        ((["CIE XYZ", "CIE xyY", "CIE Lab"] : List String).indexOf
          "CIE xyY" + 1)).Nodup
    ∧ iterReference
        (["CIE XYZ", "CIE xyY", "CIE Lab"] : List String).length
        (initReferenceState ["CIE XYZ", "CIE xyY", "CIE Lab"] "CIE xyY") =
        some ⟨some "CIE xyY",
              ⟨(["CIE XYZ", "CIE xyY", "CIE Lab"] : List String).rotate
                ((["CIE XYZ", "CIE xyY", "CIE Lab"] : List String).indexOf
                  "CIE xyY" + 1),
               (["CIE XYZ", "CIE xyY", "CIE Lab"] : List String).length⟩,
              some "CIE xyY"⟩) :=
  ⟨⟨by decide, by decide⟩,
   C2_reference_cycle ["CIE XYZ", "CIE xyY", "CIE Lab"] "CIE xyY"
     (by decide) (by decide)⟩

/-! ### Attribute setters (analysis.py lines 120-563)

The validating setters raise `AssertionError` on a registry-membership
failure before the private field is assigned; read-only setters raise
`AttributeError` unconditionally.  Errors are modelled structurally:
a registry-membership failure carries the attribute name, the
offending value and the sorted list of valid names that the assertion
message interpolates; a read-only failure carries the attribute name
that the message interpolates. -/

inductive AttrError where
  | invalidAttribute (attr : String) (value : String) (valid : List String)
  | readOnly (attr : String)
  deriving Repr, DecidableEq

/-- Result of assigning a setter result to a field: on success the new
value is committed, on an error the field keeps its previous value
(the Python assert fires before the assignment line). -/
def applySet {α : Type} (cur : α) : Except AttrError α → α
  | Except.ok v => v
  | Except.error _ => cur

/-- `Analysis.input_colourspace` setter (analysis.py lines 195-214):
`None` is assigned unchecked; otherwise the value must be a key of
`RGB_COLOURSPACES`, else the assertion fires with a message listing
`sorted(RGB_COLOURSPACES.keys())`. -/
def set_input_colourspace (RGB_COLOURSPACES : List String)
    (value : Option String) : Except AttrError (Option String) :=
  match value with
  | none => Except.ok none
  | some v =>
    if RGB_COLOURSPACES.contains v then Except.ok (some v)
    else Except.error
      (AttrError.invalidAttribute "input_colourspace" v
        (sortStrings RGB_COLOURSPACES))

/-- `Analysis.input_oecf` setter (analysis.py lines 229-248). -/
def set_input_oecf (RGB_COLOURSPACES : List String)
    (value : Option String) : Except AttrError (Option String) :=
  match value with
  | none => Except.ok none
  | some v =>
    if RGB_COLOURSPACES.contains v then Except.ok (some v)
    else Except.error
      (AttrError.invalidAttribute "input_oecf" v
        (sortStrings RGB_COLOURSPACES))

/-- `Analysis.reference_colourspace` setter (analysis.py lines 322-341),
with `REFERENCE_COLOURSPACES` (from `colour_analysis.utilities.common`,
source not in the analysed tree) modelled from the spec as a registry
of named reference colour spaces whose key list is the registry
itself. -/
def set_reference_colourspace (REFERENCE_COLOURSPACES : List String)
    (value : Option String) : Except AttrError (Option String) :=
  match value with
  | none => Except.ok none
  | some v =>
    if REFERENCE_COLOURSPACES.contains v then Except.ok (some v)
    else Except.error
      (AttrError.invalidAttribute "reference_colourspace" v
        (sortStrings REFERENCE_COLOURSPACES))

/-- `Analysis.correlate_colourspace` setter (analysis.py lines 356-375). -/
def set_correlate_colourspace (RGB_COLOURSPACES : List String)
    (value : Option String) : Except AttrError (Option String) :=
  match value with
  | none => Except.ok none
  | some v =>
    if RGB_COLOURSPACES.contains v then Except.ok (some v)
    else Except.error
      (AttrError.invalidAttribute "correlate_colourspace" v
        (sortStrings RGB_COLOURSPACES))

/-- `Analysis.input_resample` setter (analysis.py lines 292-307): the
only check is `type(value) is int`, which any integer passes; there is
no lower-bound check, so every integer value is committed. -/
def set_input_resample (value : Option Int) :
    Except AttrError (Option Int) :=
  match value with
  | none => Except.ok none
  | some v => Except.ok (some v)

/-- `Analysis.settings` setter (analysis.py lines 390-402): read only. -/
def set_settings {α : Type} (_value : α) : Except AttrError α :=
  Except.error (AttrError.readOnly "settings")

/-- `Analysis.actions` setter (analysis.py lines 447-459): read only. -/
def set_actions {α : Type} (_value : α) : Except AttrError α :=
  Except.error (AttrError.readOnly "actions")

/-- `Analysis.console_view` setter (analysis.py lines 473-485):
read only. -/
def set_console_view {α : Type} (_value : α) : Except AttrError α :=
  Except.error (AttrError.readOnly "console_view")

/-- `Analysis.gamut_view` setter (analysis.py lines 499-511):
read only. -/
def set_gamut_view {α : Type} (_value : α) : Except AttrError α :=
  Except.error (AttrError.readOnly "gamut_view")

/-- `Analysis.image_view` setter (analysis.py lines 525-537):
read only. -/
def set_image_view {α : Type} (_value : α) : Except AttrError α :=
  Except.error (AttrError.readOnly "image_view")

/-- `Analysis.diagram_view` setter (analysis.py lines 551-563):
read only. -/
def set_diagram_view {α : Type} (_value : α) : Except AttrError α :=
  Except.error (AttrError.readOnly "diagram_view")

theorem insertSorted_perm (x : String) (l : List String) :
    (insertSorted x l).Perm (x :: l) := by
  induction l with
  | nil => simp [insertSorted]
  | cons y ys ih =>
    by_cases h : stringLe x y
    · simp [insertSorted, h]
    · simp only [insertSorted, h, Bool.false_eq_true, if_false]
      exact (ih.cons y).trans (List.Perm.swap x y ys)

theorem sortStrings_perm (l : List String) : (sortStrings l).Perm l := by
  induction l with
  | nil => simp [sortStrings]
  | cons x xs ih =>
    simp only [sortStrings, List.foldr_cons]
    exact (insertSorted_perm x _).trans (ih.cons x)

/-! ### Layout engine (analysis.py lines 669-679) -/

/-- The `ViewPreset` named tuple (analysis.py lines 34-42). -/
structure ViewPreset where
  name : String
  description : String
  view : String
  row : Nat
  column : Nat
  row_span : Nat
  column_span : Nat
  deriving Repr, DecidableEq

/-- The `LayoutPreset` named tuple (analysis.py lines 44-48); `views`
is the dict of view presets as an association list. -/
structure LayoutPreset where
  name : String
  description : String
  views : List (String × ViewPreset)
  deriving Repr, DecidableEq

/-- A `grid.add_widget` call made by `Analysis.__layout_views`: the
widget attribute name placed at the given grid cell and spans. -/
structure Placement where
  widget : String
  row : Nat
  column : Nat
  row_span : Nat
  column_span : Nat
  deriving Repr, DecidableEq

/-- Failure of `Analysis.__layout_views` when the active layout name
is not a key of the preset table (the `LayoutNotFound` error of the
spec taxonomy: `__layout_presets.get` returns `None` and the
attribute access on it fails at layout-application time). -/
inductive LayoutError where
  | layoutNotFound (name : String)
  deriving Repr, DecidableEq

/-- `Analysis.__layout_views` (analysis.py lines 669-679): resolve the
active layout name against the preset table; for each view preset of
the resolved layout add the named view widget to the grid at its row
and column with its row span and column span. -/
def layout_views (presets : List (String × LayoutPreset))
    (active : String) : Except LayoutError (List Placement) :=
  match presets.lookup active with
  | none => Except.error (LayoutError.layoutNotFound active)
  | some lp => Except.ok (lp.views.map (fun nv =>
      ⟨nv.2.view, nv.2.row, nv.2.column, nv.2.row_span, nv.2.column_span⟩))

/-- C5: for each colour-space-valued field, assigning a registry name
succeeds with exactly that name committed; assigning an absent name
fails with an `InvalidAttribute` error naming the field, the value and
the sorted list of all valid names (a permutation of the registry),
and `applySet` leaves the previous field value unchanged. -/
theorem C5_colourspace_setters (rgb refs : List String)
    (cur : Option String) (vin vrin vout vrout : String)
    (hin : vin ∈ rgb) (hrin : vrin ∈ refs)
    (hout : vout ∉ rgb) (hrout : vrout ∉ refs) :
    (set_input_colourspace rgb (some vin) = Except.ok (some vin)
     ∧ set_input_oecf rgb (some vin) = Except.ok (some vin)
     ∧ set_reference_colourspace refs (some vrin) = Except.ok (some vrin)
     ∧ set_correlate_colourspace rgb (some vin) = Except.ok (some vin))
    ∧ (set_input_colourspace rgb (some vout) = Except.error
        (AttrError.invalidAttribute "input_colourspace" vout
          (sortStrings rgb))
     ∧ set_input_oecf rgb (some vout) = Except.error
        (AttrError.invalidAttribute "input_oecf" vout (sortStrings rgb))
     ∧ set_reference_colourspace refs (some vrout) = Except.error
        (AttrError.invalidAttribute "reference_colourspace" vrout
          (sortStrings refs))
     ∧ set_correlate_colourspace rgb (some vout) = Except.error
        (AttrError.invalidAttribute "correlate_colourspace" vout
          (sortStrings rgb)))
    ∧ (applySet cur (set_input_colourspace rgb (some vout)) = cur
     ∧ applySet cur (set_input_oecf rgb (some vout)) = cur
     ∧ applySet cur (set_reference_colourspace refs (some vrout)) = cur
     ∧ applySet cur (set_correlate_colourspace rgb (some vout)) = cur)
    ∧ (sortStrings rgb).Perm rgb ∧ (sortStrings refs).Perm refs := by
  refine ⟨⟨?_, ?_, ?_, ?_⟩, ⟨?_, ?_, ?_, ?_⟩, ⟨?_, ?_, ?_, ?_⟩,
    sortStrings_perm rgb, sortStrings_perm refs⟩ <;>
    simp [set_input_colourspace, set_input_oecf,
      set_reference_colourspace, set_correlate_colourspace, applySet,
      hin, hrin, hout, hrout]

/-- C5 witness: the setters instantiated at a concrete registry pair,
a present and an absent name each. -/
theorem C5_witness :
    ("ACEScg" ∈ ["Rec. 709", "ACEScg"] ∧
     "CIE xyY" ∈ ["CIE XYZ", "CIE xyY"] ∧
     "NoSuchSpace" ∉ ["Rec. 709", "ACEScg"] ∧
     "NoSuchRef" ∉ ["CIE XYZ", "CIE xyY"]) ∧
    (set_input_colourspace ["Rec. 709", "ACEScg"] (some "ACEScg") =
        Except.ok (some "ACEScg")
     ∧ applySet (some "Rec. 709")
        (set_input_colourspace ["Rec. 709", "ACEScg"]
          (some "NoSuchSpace")) = some "Rec. 709"
     ∧ set_reference_colourspace ["CIE XYZ", "CIE xyY"]
        (some "NoSuchRef") = Except.error
        (AttrError.invalidAttribute "reference_colourspace" "NoSuchRef"
          (sortStrings ["CIE XYZ", "CIE xyY"]))) := by
  have h := C5_colourspace_setters ["Rec. 709", "ACEScg"]
    ["CIE XYZ", "CIE xyY"] (some "Rec. 709") "ACEScg" "CIE xyY"
    "NoSuchSpace" "NoSuchRef" (by decide) (by decide) (by decide)
    (by decide)
  exact ⟨⟨by decide, by decide, by decide, by decide⟩,
    h.1.1, h.2.2.1.1, h.2.1.2.2.1⟩

/-- C7: each of the read-only fields settings, actions, console_view,
gamut_view, image_view and diagram_view rejects every write attempt
with an `ImmutableAttribute` error naming the attempted field, and the
field value is unchanged by the attempt. -/
theorem C7_read_only_fields {α : Type} (cur value : α) :
    (set_settings value = Except.error (AttrError.readOnly "settings")
     ∧ applySet cur (set_settings value) = cur)
    ∧ (set_actions value = Except.error (AttrError.readOnly "actions")
     ∧ applySet cur (set_actions value) = cur)
    ∧ (set_console_view value =
        Except.error (AttrError.readOnly "console_view")
     ∧ applySet cur (set_console_view value) = cur)
    ∧ (set_gamut_view value =
        Except.error (AttrError.readOnly "gamut_view")
     ∧ applySet cur (set_gamut_view value) = cur)
    ∧ (set_image_view value =
        Except.error (AttrError.readOnly "image_view")
     ∧ applySet cur (set_image_view value) = cur)
    ∧ (set_diagram_view value =
        Except.error (AttrError.readOnly "diagram_view")
     ∧ applySet cur (set_diagram_view value) = cur) := by
  refine ⟨⟨rfl, rfl⟩, ⟨rfl, rfl⟩, ⟨rfl, rfl⟩, ⟨rfl, rfl⟩, ⟨rfl, rfl⟩,
    ⟨rfl, rfl⟩⟩

/-- C6: applying the active layout fails with `LayoutNotFound` when
the active name is absent from the preset table; when present, every
view preset of the resolved layout yields a placement of its named
view widget at its row and column with its row span and column
span. -/
theorem C6_layout_views (presets : List (String × LayoutPreset))
    (missing active : String) (lp : LayoutPreset)
    (nv : String × ViewPreset)
    (hmiss : presets.lookup missing = none)
    (hhit : presets.lookup active = some lp)
    (hnv : nv ∈ lp.views) :
    layout_views presets missing =
      Except.error (LayoutError.layoutNotFound missing)
    ∧ layout_views presets active = Except.ok (lp.views.map (fun v =>
        ⟨v.2.view, v.2.row, v.2.column, v.2.row_span, v.2.column_span⟩))
    ∧ ∀ placements, layout_views presets active = Except.ok placements →
        (⟨nv.2.view, nv.2.row, nv.2.column, nv.2.row_span,
          nv.2.column_span⟩ : Placement) ∈ placements := by
  refine ⟨?_, ?_, ?_⟩
  · simp [layout_views, hmiss]
  · simp [layout_views, hhit]
  · intro placements hpl
    simp only [layout_views, hhit, Except.ok.injEq] at hpl
    subst hpl
    exact List.mem_map.mpr ⟨nv, hnv, rfl⟩

/-- C6 witness: the layout engine at a concrete preset table with an
absent name and a present one-view layout. -/
theorem C6_witness :
    ([("layout_1", (⟨"layout_1", "d",
        [("gamut_view", ⟨"gamut_view", "d", "gamut_view", 1, 2, 3,
          4⟩)]⟩ : LayoutPreset))].lookup "nope" = none ∧
     [("layout_1", (⟨"layout_1", "d",
        [("gamut_view", ⟨"gamut_view", "d", "gamut_view", 1, 2, 3,
          4⟩)]⟩ : LayoutPreset))].lookup "layout_1" =
       some ⟨"layout_1", "d",
        [("gamut_view", ⟨"gamut_view", "d", "gamut_view", 1, 2, 3,
          4⟩)]⟩) ∧
    (layout_views [("layout_1", ⟨"layout_1", "d",
        [("gamut_view", ⟨"gamut_view", "d", "gamut_view", 1, 2, 3,
          4⟩)]⟩)] "nope" =
      Except.error (LayoutError.layoutNotFound "nope") ∧
     layout_views [("layout_1", ⟨"layout_1", "d",
        [("gamut_view", ⟨"gamut_view", "d", "gamut_view", 1, 2, 3,
          4⟩)]⟩)] "layout_1" =
      Except.ok [⟨"gamut_view", 1, 2, 3, 4⟩]) := by
  have h := C6_layout_views
    [("layout_1", ⟨"layout_1", "d",
      [("gamut_view", ⟨"gamut_view", "d", "gamut_view", 1, 2, 3, 4⟩)]⟩)]
    "nope" "layout_1"
    ⟨"layout_1", "d",
      [("gamut_view", ⟨"gamut_view", "d", "gamut_view", 1, 2, 3, 4⟩)]⟩
    ("gamut_view", ⟨"gamut_view", "d", "gamut_view", 1, 2, 3, 4⟩)
    (by decide) (by decide) (by decide)
  exact ⟨⟨by decide, by decide⟩, h.1, h.2.1⟩

/-! ### Construction-time image pipeline (analysis.py lines 598-607)

An image is a list of rows, a row a list of pixels, a pixel a list of
channel samples of an abstract sample type (the pipeline never
inspects sample values; the external inverse transfer function is an
opaque elementwise map). -/

/-- Helper for the extended slice `l[::n]`: walk the list with a skip
counter, keeping an element when the counter is 0 and resetting it to
n - 1. -/
def decimateAux {α : Type} (n : Nat) : List α → Nat → List α
  | [], _ => []
  | x :: xs, 0 => x :: decimateAux n xs (n - 1)
  | _ :: xs, k + 1 => decimateAux n xs k

/-- Python extended slice `l[::n]` for a positive step `n`: keep every
n-th element starting at index 0. -/
def decimate {α : Type} (l : List α) (n : Nat) : List α :=
  decimateAux n l 0

/-- Python extended slice `l[::step]` for a nonzero integer step:
a negative step walks from the end backwards. -/
def decimateZ {α : Type} (l : List α) (step : Int) : List α :=
  if 0 < step then decimate l step.toNat
  else decimate l.reverse (-step).toNat

/-- Python/numpy `image[::step, ::step]`: raises
`ValueError: slice step cannot be zero` on step 0, otherwise decimates
both spatial axes. -/
def sliceStep2d {α : Type} (img : List (List α)) (step : Int) :
    Except String (List (List α)) :=
  if step = 0 then Except.error "slice step cannot be zero"
  else Except.ok ((decimateZ img step).map (fun row => decimateZ row step))

/-- `Analysis.__create_image` (analysis.py lines 598-607) after the
external decode: linearize through the OECF inverse transfer function
unless the input is declared linear, keep the first three channels of
every pixel (`image[..., 0:3]`), then decimate rows and columns by the
resample factor (`image[::r, ::r]`). -/
def create_image {α : Type} (inverse_transfer : α → α)
    (input_linear : Bool) (input_resample : Int)
    (image0 : List (List (List α))) :
    Except String (List (List (List α))) :=
  let image1 := if input_linear then image0
    else image0.map (fun row => row.map (fun px => px.map inverse_transfer))
  let image2 := image1.map (fun row => row.map (fun px => px.take 3))
  sliceStep2d image2 input_resample

/-- Spatial dimensions of a pipeline result: row count and the length
of every row, or `none` on a pipeline error. -/
def resultDims {α : Type} :
    Except String (List (List (List α))) → Option (Nat × List Nat)
  | Except.error _ => none
  | Except.ok img => some (img.length, img.map List.length)

theorem decimateAux_one {α : Type} : ∀ l : List α, decimateAux 1 l 0 = l
  | [] => rfl
  | x :: xs => by
    show x :: decimateAux 1 xs (1 - 1) = x :: xs
    rw [show (1 : Nat) - 1 = 0 from rfl, decimateAux_one xs]

theorem decimate_one {α : Type} (l : List α) : decimate l 1 = l :=
  decimateAux_one l

theorem decimateAux_two_length {α : Type} : ∀ l : List α,
    (decimateAux 2 l 0).length = (l.length + 1) / 2
    ∧ (decimateAux 2 l 1).length = l.length / 2
  | [] => by simp [decimateAux]
  | x :: xs => by
    have ih := decimateAux_two_length xs
    refine ⟨?_, ?_⟩
    · show (x :: decimateAux 2 xs (2 - 1)).length = ((x :: xs).length + 1) / 2
      rw [show (2 : Nat) - 1 = 1 from rfl, List.length_cons, ih.2,
        List.length_cons]
      omega
    · show (decimateAux 2 xs 0).length = (x :: xs).length / 2
      rw [ih.1, List.length_cons]

theorem decimate_two_length {α : Type} (l : List α) :
    (decimate l 2).length = (l.length + 1) / 2 :=
  (decimateAux_two_length l).1

theorem mem_decimateAux {α : Type} {a : α} (n : Nat) :
    ∀ (l : List α) (k : Nat), a ∈ decimateAux n l k → a ∈ l
  | [], _ => by simp [decimateAux]
  | x :: xs, 0 => by
    intro h
    have h2 : a ∈ x :: decimateAux n xs (n - 1) := h
    rcases List.mem_cons.mp h2 with h1 | h1
    · exact List.mem_cons.mpr (Or.inl h1)
    · exact List.mem_cons.mpr (Or.inr (mem_decimateAux n xs _ h1))
  | x :: xs, k + 1 => by
    intro h
    exact List.mem_cons.mpr (Or.inr (mem_decimateAux n xs k h))

theorem mem_decimate {α : Type} {a : α} (l : List α) (n : Nat)
    (h : a ∈ decimate l n) : a ∈ l :=
  mem_decimateAux n l 0 h

theorem mem_decimateZ {α : Type} {a : α} (l : List α) (step : Int)
    (h : a ∈ decimateZ l step) : a ∈ l := by
  unfold decimateZ at h
  by_cases hs : 0 < step
  · rw [if_pos hs] at h
    exact mem_decimate _ _ h
  · rw [if_neg hs] at h
    exact List.mem_reverse.mp (mem_decimate _ _ h)

theorem decimateZ_one {α : Type} (l : List α) : decimateZ l 1 = l := by
  unfold decimateZ
  rw [if_pos (by norm_num : (0 : Int) < 1)]
  rw [show (1 : Int).toNat = 1 from rfl]
  exact decimate_one l

theorem decimateZ_two {α : Type} (l : List α) :
    decimateZ l 2 = decimate l 2 := by
  unfold decimateZ
  rw [if_pos (by norm_num : (0 : Int) < 2),
    show (2 : Int).toNat = 2 from rfl]

theorem channel_crop_row_lengths {α : Type} (itf : α → α) (lin : Bool)
    (img : List (List (List α))) :
    ((if lin then img else
        img.map (fun row => row.map (fun px => px.map itf))).map
      (fun row => row.map (fun px => px.take 3))).map List.length =
      img.map List.length := by
  by_cases hl : lin
  · rw [if_pos hl, List.map_map]
    apply List.map_congr_left
    intro row _
    simp
  · rw [if_neg hl, List.map_map, List.map_map]
    apply List.map_congr_left
    intro row _
    simp

/-- C8: the construction-time pipeline with resample factor 1 leaves
the image's spatial dimensions unchanged, and with factor 2, on a
rectangular image of width w, keeps every second row and column, so
each spatial dimension becomes the ceiling of its half. -/
theorem C8_resample_dimensions {α : Type} (itf : α → α) (lin : Bool)
    (img : List (List (List α))) (w : Nat)
    (hw : ∀ row ∈ img, row.length = w) :
    resultDims (create_image itf lin 1 img) =
      some (img.length, img.map List.length)
    ∧ resultDims (create_image itf lin 2 img) =
      some ((img.length + 1) / 2,
        List.replicate ((img.length + 1) / 2) ((w + 1) / 2)) := by
  set image2 := (if lin then img else
      img.map (fun row => row.map (fun px => px.map itf))).map
    (fun row => row.map (fun px => px.take 3)) with himage2
  have hlen2 : image2.length = img.length := by
    rw [himage2]
    by_cases hl : lin <;> simp [hl]
  have hrowlen : image2.map List.length = img.map List.length := by
    rw [himage2]
    exact channel_crop_row_lengths itf lin img
  have hw2 : ∀ row ∈ image2, row.length = w := by
    intro row hrow
    rw [himage2] at hrow
    rcases List.mem_map.mp hrow with ⟨row0, hrow0, hmap⟩
    by_cases hl : lin
    · rw [if_pos hl] at hrow0
      rw [← hmap, List.length_map]
      exact hw row0 hrow0
    · rw [if_neg hl] at hrow0
      rcases List.mem_map.mp hrow0 with ⟨row1, hrow1, hmap1⟩
      rw [← hmap, List.length_map, ← hmap1, List.length_map]
      exact hw row1 hrow1
  have hok1 : create_image itf lin 1 img = Except.ok image2 := by
    show sliceStep2d image2 1 = Except.ok image2
    unfold sliceStep2d
    rw [if_neg (by norm_num : ¬ (1 : Int) = 0), decimateZ_one]
    have h3 : image2.map (fun row => decimateZ row 1) = image2.map id := by
      apply List.map_congr_left
      intro row _
      rw [decimateZ_one]
      rfl
    rw [h3, List.map_id]
  have hok2 : create_image itf lin 2 img =
      Except.ok ((decimate image2 2).map (fun row => decimate row 2)) := by
    show sliceStep2d image2 2 = _
    unfold sliceStep2d
    rw [if_neg (by norm_num : ¬ (2 : Int) = 0), decimateZ_two]
    have h3 : (decimate image2 2).map (fun row => decimateZ row 2) =
        (decimate image2 2).map (fun row => decimate row 2) := by
      apply List.map_congr_left
      intro row _
      rw [decimateZ_two]
    rw [h3]
  constructor
  · rw [hok1]
    show some (image2.length, image2.map List.length) = _
    rw [hlen2, hrowlen]
  · rw [hok2]
    show some (((decimate image2 2).map (fun row => decimate row 2)).length,
      ((decimate image2 2).map (fun row => decimate row 2)).map
        List.length) = _
    have hL : ((decimate image2 2).map
        (fun row => decimate row 2)).length = (img.length + 1) / 2 := by
      rw [List.length_map, decimate_two_length, hlen2]
    have hR : ((decimate image2 2).map (fun row => decimate row 2)).map
        List.length =
        List.replicate ((img.length + 1) / 2) ((w + 1) / 2) := by
      apply List.eq_replicate_iff.mpr
      constructor
      · rw [List.length_map, List.length_map, decimate_two_length, hlen2]
      · intro b hb
        rcases List.mem_map.mp hb with ⟨row2, hrow2, hbeq⟩
        rcases List.mem_map.mp hrow2 with ⟨row, hrow, hreq⟩
        have hrw : row.length = w := hw2 row (mem_decimate _ _ hrow)
        rw [← hbeq, ← hreq, decimate_two_length, hrw]
    rw [hL, hR]

/-- C8 witness: the pipeline on a concrete 2-row by 3-column image of
single-channel pixels, at resample factors 1 and 2. -/
theorem C8_witness :
    (∀ row ∈ ([[[1], [2], [3]], [[4], [5], [6]]] :
        List (List (List Nat))), row.length = 3) ∧
    (resultDims (create_image (fun x : Nat => x) true 1
        [[[1], [2], [3]], [[4], [5], [6]]]) =
      some (([[[1], [2], [3]], [[4], [5], [6]]] :
          List (List (List Nat))).length,
        ([[[1], [2], [3]], [[4], [5], [6]]] :
          List (List (List Nat))).map List.length)
    ∧ resultDims (create_image (fun x : Nat => x) true 2
        [[[1], [2], [3]], [[4], [5], [6]]]) =
      some ((([[[1], [2], [3]], [[4], [5], [6]]] :
            List (List (List Nat))).length + 1) / 2,
        List.replicate ((([[[1], [2], [3]], [[4], [5], [6]]] :
            List (List (List Nat))).length + 1) / 2, (3 + 1) / 2).1
          ((3 + 1) / 2))) :=
  ⟨by decide, C8_resample_dimensions (fun x => x) true
    [[[1], [2], [3]], [[4], [5], [6]]] 3 (by decide)⟩

/-- C9 counterexample: the `input_resample` setter accepts the integer
0, which violates the claimed resample-factor invariant, and an input
image whose pixels have only 2 channels comes out of the pipeline with
2 channels, not exactly 3. -/
theorem C9_counterexample :
    set_input_resample (some 0) = Except.ok (some 0)
    ∧ ¬ (1 : Int) ≤ 0
    ∧ create_image (fun x : Nat => x) true 1 [[[5, 6]]] =
        Except.ok [[[5, 6]]]
    ∧ ([5, 6] : List Nat).length ≠ 3 := by
  refine ⟨rfl, by decide, rfl, by decide⟩

/-- C9 (amended): after load every pixel has min 3 c channels, where c
is the input channel count — exactly 3 only when the input has at
least 3 channels; the `input_resample` setter only type-checks and
commits every integer, including values below 1, and a resample factor
of 0 makes the pipeline itself fail with a zero-slice-step error. -/
theorem C9_amended {α : Type} (itf : α → α) (lin : Bool) (r : Int)
    (img out : List (List (List α))) (c : Nat)
    (row : List (List α)) (px : List α) (v : Int)
    (hc : ∀ r0 ∈ img, ∀ p0 ∈ r0, List.length p0 = c)
    (hok : create_image itf lin r img = Except.ok out)
    (hrow : row ∈ out) (hpx : px ∈ row) :
    px.length = min 3 c
    ∧ set_input_resample (some v) = Except.ok (some v)
    ∧ create_image itf lin 0 img =
        Except.error "slice step cannot be zero" := by
  refine ⟨?_, rfl, ?_⟩
  · set image1 := (if lin then img else
        img.map (fun r1 => r1.map (fun p1 => p1.map itf))) with himage1
    set image2 := image1.map (fun r1 => r1.map (fun p1 => p1.take 3))
      with himage2
    have hc1 : ∀ r0 ∈ image1, ∀ p0 ∈ r0, List.length p0 = c := by
      intro r0 hr0 p0 hp0
      rw [himage1] at hr0
      by_cases hl : lin
      · rw [if_pos hl] at hr0
        exact hc r0 hr0 p0 hp0
      · rw [if_neg hl] at hr0
        rcases List.mem_map.mp hr0 with ⟨r1, hr1, hre⟩
        rw [← hre] at hp0
        rcases List.mem_map.mp hp0 with ⟨p1, hp1, hpe⟩
        rw [← hpe, List.length_map]
        exact hc r1 hr1 p1 hp1
    have hout : out = (decimateZ image2 r).map (fun r1 => decimateZ r1 r)
      := by
      by_cases hr : r = 0
      · exfalso
        rw [hr] at hok
        have h1 : sliceStep2d image2 (0 : Int) = Except.ok out := hok
        simp [sliceStep2d] at h1
      · have h1 : sliceStep2d image2 r = Except.ok out := hok
        simp only [sliceStep2d, if_neg hr, Except.ok.injEq] at h1
        exact h1.symm
    rw [hout] at hrow
    rcases List.mem_map.mp hrow with ⟨r2, hr2, hre2⟩
    have hr2m : r2 ∈ image2 := mem_decimateZ _ _ hr2
    rw [← hre2] at hpx
    have hpx2 : px ∈ r2 := mem_decimateZ _ _ hpx
    rw [himage2] at hr2m
    rcases List.mem_map.mp hr2m with ⟨r1, hr1, hre1⟩
    rw [← hre1] at hpx2
    rcases List.mem_map.mp hpx2 with ⟨p1, hp1, hpe1⟩
    rw [← hpe1, List.length_take, hc1 r1 hr1 p1 hp1]
  · show sliceStep2d _ (0 : Int) = _
    simp [sliceStep2d]

/-- C9 witness: the amended theorem at a concrete one-pixel image with
2 input channels, resample factor 1 and setter value 0. -/
theorem C9_witness :
    ((∀ r0 ∈ ([[[5, 6]]] : List (List (List Nat))), ∀ p0 ∈ r0,
        List.length p0 = 2) ∧
     (create_image (fun x : Nat => x) true 1 [[[5, 6]]] =
       Except.ok [[[5, 6]]]) ∧
     ([[5, 6]] : List (List Nat)) ∈ ([[[5, 6]]] : List (List (List Nat))) ∧
     ([5, 6] : List Nat) ∈ ([[5, 6]] : List (List Nat))) ∧
    (([5, 6] : List Nat).length = min 3 2
     ∧ set_input_resample (some 0) = Except.ok (some 0)
     ∧ create_image (fun x : Nat => x) true 0 [[[5, 6]]] =
         Except.error "slice step cannot be zero") :=
  ⟨⟨by decide, rfl, by decide, by decide⟩,
   C9_amended (fun x => x) true 1 [[[5, 6]]] [[[5, 6]]] 2 [[5, 6]] [5, 6]
     0 (by decide) rfl (by decide) (by decide)⟩

/-! ### Key-chord action dispatch (analysis.py lines 23-32, 565-577,
609-623, 625-667) -/

/-- ASCII lower-casing of a character: the fragment of Python
`str.lower()` exercised by key and modifier names. -/
def charToLower (c : Char) : Char :=
  if 65 ≤ c.toNat && c.toNat ≤ 90 then Char.ofNat (c.toNat + 32) else c

/-- ASCII `str.lower()` on a string. -/
def toLowerStr (s : String) : String :=
  String.mk (s.data.map charToLower)

/-- The `Sequence` named tuple (analysis.py lines 23-26). -/
structure Sequence where
  modifiers : List String
  key : Option String
  deriving Repr, DecidableEq

/-- The `Action` named tuple (analysis.py lines 28-32). -/
structure Action where
  name : String
  description : String
  sequence : Sequence
  deriving Repr, DecidableEq

/-- A `sequence` entry of a settings action: its modifier names
(defaulting to the empty tuple) and its optional primary key. -/
structure SequenceSetting where
  modifiers : List String
  key : Option String
  deriving Repr, DecidableEq

/-- An `actions` entry of the settings structure. -/
structure ActionSetting where
  name : String
  description : String
  sequence : Option SequenceSetting
  deriving Repr, DecidableEq

/-- `Analysis.__create_actions` (analysis.py lines 609-623): each
settings action becomes an `Action`; an absent `sequence` yields
`Sequence(modifiers=(), key=None)`. -/
def create_actions (settings : List (String × ActionSetting)) :
    List (String × Action) :=
  settings.map (fun na =>
    (na.1, ⟨na.2.name, na.2.description,
      match na.2.sequence with
      | some s => ⟨s.modifiers, s.key⟩
      | none => ⟨[], none⟩⟩))

/-- A key-press event from the rendering backend: `event.key.name`
(every delivered key press carries a concrete key name) and the held
modifier names. -/
structure KeyEvent where
  key : String
  modifiers : List String
  deriving Repr, DecidableEq

/-- The chord match of `Analysis.on_key_press` (analysis.py lines
566-571): the lowercased event key must equal the action's stored key
(`None` never equals a string), and the sorted lowercased event
modifiers must equal the sorted stored modifiers. -/
def matchesAction (e : KeyEvent) (a : Action) : Bool :=
  (a.sequence.key == some (toLowerStr e.key)) &&
  (sortStrings (e.modifiers.map toLowerStr) ==
    sortStrings a.sequence.modifiers)

/-- A view as the dispatcher sees it: its widget name and the handler
method names it exposes (`hasattr`). -/
structure ViewModel where
  name : String
  methods : List String
  deriving Repr, DecidableEq

/-- Dispatch target of a handler invocation. -/
inductive Target where
  | coordinator
  | view (name : String)
  deriving Repr, DecidableEq

/-- The dispatcher slice of the coordinator: the actions dict, the
handler names the coordinator itself exposes, and the `__views`
tuple. -/
structure Dispatcher where
  actions : List (String × Action)
  coordinatorMethods : List String
  views : List ViewModel
  deriving Repr, DecidableEq

/-- `Analysis.__create_views` (analysis.py lines 625-667): all four
views are constructed, but the `__views` tuple (lines 665-667) holds
only the console, gamut and image views — the diagram view is left
out. -/
def mkViews (console gamut image _diagram : ViewModel) :
    List ViewModel :=
  [console, gamut, image]

/-- The handler invocations of one matched action (analysis.py lines
572-577): the coordinator's own `<name>_action` if present, then, for
every view of the `__views` tuple, that view's `<name>_action` if
present. -/
def actionInvocations (d : Dispatcher) (a : Action) :
    List (Target × String) :=
  (if d.coordinatorMethods.contains (a.name ++ "_action")
   then [(Target.coordinator, a.name ++ "_action")] else [])
  ++ d.views.flatMap (fun v =>
      if v.methods.contains (a.name ++ "_action")
      then [(Target.view v.name, a.name ++ "_action")] else [])

/-- `Analysis.on_key_press` (analysis.py lines 565-577): for every
registered action whose chord matches the normalized event, invoke its
handlers in order. -/
def on_key_press (d : Dispatcher) (e : KeyEvent) :
    List (Target × String) :=
  (d.actions.map Prod.snd).flatMap
    (fun a => if matchesAction e a then actionInvocations d a else [])

theorem flatMap_if_eq_filter {α β : Type} (l : List α) (p : α → Bool)
    (f : α → List β) :
    l.flatMap (fun a => if p a then f a else []) =
      (l.filter p).flatMap f := by
  induction l with
  | nil => rfl
  | cons x xs ih =>
    by_cases h : p x
    · simp [List.filter_cons, h, ih]
    · simp [List.filter_cons, h, ih]

theorem on_key_press_eq (d : Dispatcher) (e : KeyEvent) :
    on_key_press d e =
      ((d.actions.map Prod.snd).filter (matchesAction e)).flatMap
        (actionInvocations d) :=
  flatMap_if_eq_filter _ _ _

theorem coordinator_not_in_view_part (views : List ViewModel)
    (m t : String) :
    (Target.coordinator, t) ∉ views.flatMap (fun v =>
      if v.methods.contains m
      then [(Target.view v.name, m)] else []) := by
  intro h
  rcases List.mem_flatMap.mp h with ⟨v, _, hmem⟩
  by_cases hc : v.methods.contains m
  · rw [if_pos hc] at hmem
    simp at hmem
  · rw [if_neg hc] at hmem
    simp at hmem

theorem count_coordinator_invocations (d : Dispatcher) (a : Action) :
    List.count (Target.coordinator, a.name ++ "_action")
      (actionInvocations d a) =
      (if d.coordinatorMethods.contains (a.name ++ "_action")
       then 1 else 0) := by
  unfold actionInvocations
  rw [List.count_append]
  rw [List.count_eq_zero.mpr
    (coordinator_not_in_view_part d.views (a.name ++ "_action")
      (a.name ++ "_action"))]
  by_cases hc : d.coordinatorMethods.contains (a.name ++ "_action")
  · rw [if_pos hc, if_pos hc]
    simp
  · rw [if_neg hc, if_neg hc]
    simp

/-- C3: with the actions built from a settings structure holding
exactly one action bound to chord modifiers `{"control"}` and key
`"g"`, a key event whose lowercased key is `"g"` and whose lowercased
sorted modifiers are `["control"]` (any letter case on the event side)
dispatches exactly that action's handlers — in particular the
coordinator handler fires exactly once when present — while an event
with key `"g"` and no held modifiers dispatches nothing. -/
theorem C3_chord_dispatch (entry name0 desc0 : String)
    (selfM : List String) (views : List ViewModel) (e1 e2 : KeyEvent)
    (h1 : toLowerStr e1.key = "g")
    (h2 : sortStrings (e1.modifiers.map toLowerStr) = ["control"])
    (h3 : toLowerStr e2.key = "g")
    (h4 : e2.modifiers = []) :
    on_key_press
        ⟨create_actions
          [(entry, ⟨name0, desc0, some ⟨["control"], some "g"⟩⟩)],
         selfM, views⟩ e1 =
      actionInvocations
        ⟨create_actions
          [(entry, ⟨name0, desc0, some ⟨["control"], some "g"⟩⟩)],
         selfM, views⟩ ⟨name0, desc0, ⟨["control"], some "g"⟩⟩
    ∧ List.count (Target.coordinator, name0 ++ "_action")
        (on_key_press
          ⟨create_actions
            [(entry, ⟨name0, desc0, some ⟨["control"], some "g"⟩⟩)],
           selfM, views⟩ e1) =
        (if selfM.contains (name0 ++ "_action") then 1 else 0)
    ∧ on_key_press
        ⟨create_actions
          [(entry, ⟨name0, desc0, some ⟨["control"], some "g"⟩⟩)],
         selfM, views⟩ e2 = [] := by
  have hss : sortStrings ["control"] = ["control"] := rfl
  have hse : sortStrings ([] : List String) = [] := rfl
  have hmatch : matchesAction e1 ⟨name0, desc0, ⟨["control"], some "g"⟩⟩
      = true := by
    simp [matchesAction, h1, h2, hss]
  have hnomatch :
      matchesAction e2 ⟨name0, desc0, ⟨["control"], some "g"⟩⟩
      = false := by
    simp [matchesAction, h4, hss, hse]
  have hmain : on_key_press
      ⟨create_actions
        [(entry, ⟨name0, desc0, some ⟨["control"], some "g"⟩⟩)],
       selfM, views⟩ e1 =
      actionInvocations
        ⟨create_actions
          [(entry, ⟨name0, desc0, some ⟨["control"], some "g"⟩⟩)],
         selfM, views⟩ ⟨name0, desc0, ⟨["control"], some "g"⟩⟩ := by
    simp [on_key_press, create_actions, hmatch]
  refine ⟨hmain, ?_, ?_⟩
  · rw [hmain]
    exact count_coordinator_invocations _ ⟨name0, desc0,
      ⟨["control"], some "g"⟩⟩
  · simp [on_key_press, create_actions, hnomatch]

/-- C3 witness: the dispatch at a single concrete control-g action,
an event with key "G" and modifier "Control", and an event with key
"g" and no modifiers. -/
theorem C3_witness :
    (toLowerStr "G" = "g" ∧
     sortStrings (["Control"].map toLowerStr) = ["control"] ∧
     toLowerStr "g" = "g" ∧
     (⟨"g", []⟩ : KeyEvent).modifiers = []) ∧
    (on_key_press
        ⟨create_actions
          [("toggle", ⟨"toggle", "d", some ⟨["control"], some "g"⟩⟩)],
         ["toggle_action"], [⟨"console_view", []⟩]⟩ ⟨"G", ["Control"]⟩ =
      actionInvocations
        ⟨create_actions
          [("toggle", ⟨"toggle", "d", some ⟨["control"], some "g"⟩⟩)],
         ["toggle_action"], [⟨"console_view", []⟩]⟩
        ⟨"toggle", "d", ⟨["control"], some "g"⟩⟩
    ∧ List.count (Target.coordinator, "toggle" ++ "_action")
        (on_key_press
          ⟨create_actions
            [("toggle", ⟨"toggle", "d", some ⟨["control"], some "g"⟩⟩)],
           ["toggle_action"], [⟨"console_view", []⟩]⟩
          ⟨"G", ["Control"]⟩) =
        (if List.contains ["toggle_action"] ("toggle" ++ "_action")
         then 1 else 0)
    ∧ on_key_press
        ⟨create_actions
          [("toggle", ⟨"toggle", "d", some ⟨["control"], some "g"⟩⟩)],
         ["toggle_action"], [⟨"console_view", []⟩]⟩ ⟨"g", []⟩ = []) :=
  ⟨⟨by decide, by decide, by decide, rfl⟩,
   C3_chord_dispatch "toggle" "toggle" "d" ["toggle_action"]
     [⟨"console_view", []⟩] ⟨"G", ["Control"]⟩ ⟨"g", []⟩
     (by decide) (by decide) (by decide) rfl⟩

/-- C4 counterexample: a concrete dispatcher whose four constructed
views all expose the matched action's handler: the dispatch invokes
the console, gamut and image view handlers but never the diagram
view's handler, because the `__views` tuple omits the diagram view. -/
theorem C4_counterexample :
    matchesAction ⟨"c", []⟩ ⟨"cycle", "d", ⟨[], some "c"⟩⟩ = true
    ∧ (⟨"diagram_view", ["cycle_action"]⟩ : ViewModel).methods.contains
        "cycle_action" = true
    ∧ on_key_press
        ⟨[("cycle", ⟨"cycle", "d", ⟨[], some "c"⟩⟩)], [],
         mkViews ⟨"console_view", ["cycle_action"]⟩
           ⟨"gamut_view", ["cycle_action"]⟩
           ⟨"image_view", ["cycle_action"]⟩
           ⟨"diagram_view", ["cycle_action"]⟩⟩ ⟨"c", []⟩ =
      [(Target.view "console_view", "cycle_action"),
       (Target.view "gamut_view", "cycle_action"),
       (Target.view "image_view", "cycle_action")]
    ∧ (Target.view "diagram_view", "cycle_action") ∉ on_key_press
        ⟨[("cycle", ⟨"cycle", "d", ⟨[], some "c"⟩⟩)], [],
         mkViews ⟨"console_view", ["cycle_action"]⟩
           ⟨"gamut_view", ["cycle_action"]⟩
           ⟨"image_view", ["cycle_action"]⟩
           ⟨"diagram_view", ["cycle_action"]⟩⟩ ⟨"c", []⟩ := by
  refine ⟨by decide, by decide, by decide, by decide⟩

/-- C4 (amended): on a key press matching exactly one registered
action, after the coordinator's own `<action>_action` handler (if
present), the dispatcher checks only the three views of the `__views`
tuple — console, gamut and image — invoking each present handler
exactly once; the diagram view is constructed but absent from the
tuple, so its handler is never invoked. -/
theorem C4_amended (acts : List (String × Action)) (selfM : List String)
    (cv gv iv dv : ViewModel) (e : KeyEvent) (a : Action)
    (ha : (acts.map Prod.snd).filter (matchesAction e) = [a])
    (hn1 : dv.name ≠ cv.name) (hn2 : dv.name ≠ gv.name)
    (hn3 : dv.name ≠ iv.name) :
    on_key_press ⟨acts, selfM, mkViews cv gv iv dv⟩ e =
      actionInvocations ⟨acts, selfM, mkViews cv gv iv dv⟩ a
    ∧ actionInvocations ⟨acts, selfM, mkViews cv gv iv dv⟩ a =
      (if selfM.contains (a.name ++ "_action")
       then [(Target.coordinator, a.name ++ "_action")] else [])
      ++ ((if cv.methods.contains (a.name ++ "_action")
           then [(Target.view cv.name, a.name ++ "_action")] else [])
        ++ ((if gv.methods.contains (a.name ++ "_action")
             then [(Target.view gv.name, a.name ++ "_action")] else [])
          ++ ((if iv.methods.contains (a.name ++ "_action")
               then [(Target.view iv.name, a.name ++ "_action")] else [])
            ++ [])))
    ∧ (Target.view dv.name, a.name ++ "_action") ∉
        on_key_press ⟨acts, selfM, mkViews cv gv iv dv⟩ e := by
  have hmain : on_key_press ⟨acts, selfM, mkViews cv gv iv dv⟩ e =
      actionInvocations ⟨acts, selfM, mkViews cv gv iv dv⟩ a := by
    rw [on_key_press_eq]
    show ((acts.map Prod.snd).filter (matchesAction e)).flatMap _ = _
    rw [ha]
    simp
  refine ⟨hmain, rfl, ?_⟩
  rw [hmain]
  intro hmem
  unfold actionInvocations at hmem
  rcases List.mem_append.mp hmem with hco | hvi
  · by_cases hc : selfM.contains (a.name ++ "_action")
    · rw [if_pos hc] at hco
      simp at hco
    · rw [if_neg hc] at hco
      simp at hco
  · rcases List.mem_flatMap.mp hvi with ⟨v, hv, hmem2⟩
    have hvname : v.name = dv.name := by
      by_cases hc : v.methods.contains (a.name ++ "_action")
      · rw [if_pos hc] at hmem2
        have h := List.mem_singleton.mp hmem2
        have h2 : Target.view dv.name = Target.view v.name :=
          congrArg Prod.fst h
        exact ((Target.view.injEq _ _).mp h2).symm
      · rw [if_neg hc] at hmem2
        simp at hmem2
    simp only [mkViews, List.mem_cons, List.not_mem_nil, or_false] at hv
    rcases hv with h | h | h
    · rw [h] at hvname
      exact hn1 hvname.symm
    · rw [h] at hvname
      exact hn2 hvname.symm
    · rw [h] at hvname
      exact hn3 hvname.symm

/-- C4 witness: the amended theorem at a concrete single matching
action with all four views exposing the handler. -/
theorem C4_witness :
    (([("cycle", (⟨"cycle", "d", ⟨[], some "c"⟩⟩ : Action))].map
        Prod.snd).filter (matchesAction ⟨"c", []⟩) =
      [⟨"cycle", "d", ⟨[], some "c"⟩⟩] ∧
     ("diagram_view" : String) ≠ "console_view" ∧
     ("diagram_view" : String) ≠ "gamut_view" ∧
     ("diagram_view" : String) ≠ "image_view") ∧
    (on_key_press
        ⟨[("cycle", ⟨"cycle", "d", ⟨[], some "c"⟩⟩)], ["cycle_action"],
         mkViews ⟨"console_view", ["cycle_action"]⟩
           ⟨"gamut_view", ["cycle_action"]⟩
           ⟨"image_view", ["cycle_action"]⟩
           ⟨"diagram_view", ["cycle_action"]⟩⟩ ⟨"c", []⟩ =
      actionInvocations
        ⟨[("cycle", ⟨"cycle", "d", ⟨[], some "c"⟩⟩)], ["cycle_action"],
         mkViews ⟨"console_view", ["cycle_action"]⟩
           ⟨"gamut_view", ["cycle_action"]⟩
           ⟨"image_view", ["cycle_action"]⟩
           ⟨"diagram_view", ["cycle_action"]⟩⟩
        ⟨"cycle", "d", ⟨[], some "c"⟩⟩
    ∧ actionInvocations
        ⟨[("cycle", ⟨"cycle", "d", ⟨[], some "c"⟩⟩)], ["cycle_action"],
         mkViews ⟨"console_view", ["cycle_action"]⟩
           ⟨"gamut_view", ["cycle_action"]⟩
           ⟨"image_view", ["cycle_action"]⟩
           ⟨"diagram_view", ["cycle_action"]⟩⟩
        ⟨"cycle", "d", ⟨[], some "c"⟩⟩ =
      (if List.contains ["cycle_action"] ("cycle" ++ "_action")
       then [(Target.coordinator, "cycle" ++ "_action")] else [])
      ++ ((if List.contains ["cycle_action"] ("cycle" ++ "_action")
           then [(Target.view "console_view", "cycle" ++ "_action")]
           else [])
        ++ ((if List.contains ["cycle_action"] ("cycle" ++ "_action")
             then [(Target.view "gamut_view", "cycle" ++ "_action")]
             else [])
          ++ ((if List.contains ["cycle_action"] ("cycle" ++ "_action")
               then [(Target.view "image_view", "cycle" ++ "_action")]
               else [])
            ++ [])))
    ∧ (Target.view "diagram_view", "cycle" ++ "_action") ∉
        on_key_press
          ⟨[("cycle", ⟨"cycle", "d", ⟨[], some "c"⟩⟩)], ["cycle_action"],
           mkViews ⟨"console_view", ["cycle_action"]⟩
             ⟨"gamut_view", ["cycle_action"]⟩
             ⟨"image_view", ["cycle_action"]⟩
             ⟨"diagram_view", ["cycle_action"]⟩⟩ ⟨"c", []⟩) :=
  ⟨⟨by decide, by decide, by decide, by decide⟩,
   C4_amended [("cycle", ⟨"cycle", "d", ⟨[], some "c"⟩⟩)]
     ["cycle_action"] ⟨"console_view", ["cycle_action"]⟩
     ⟨"gamut_view", ["cycle_action"]⟩ ⟨"image_view", ["cycle_action"]⟩
     ⟨"diagram_view", ["cycle_action"]⟩ ⟨"c", []⟩
     ⟨"cycle", "d", ⟨[], some "c"⟩⟩
     (by decide) (by decide) (by decide) (by decide)⟩

/-- C10: a settings action with no `sequence` is registered with a
`None` primary key and an empty modifier set, no key event (whose
normalized key is always a concrete string) can ever match it, and
dispatching any event against a registry holding only that action
invokes nothing. -/
theorem C10_sequenceless_action (entry : String) (s : ActionSetting)
    (selfM : List String) (views : List ViewModel) (e : KeyEvent)
    (hs : s.sequence = none) :
    create_actions [(entry, s)] =
      [(entry, ⟨s.name, s.description, ⟨[], none⟩⟩)]
    ∧ matchesAction e ⟨s.name, s.description, ⟨[], none⟩⟩ = false
    ∧ on_key_press ⟨create_actions [(entry, s)], selfM, views⟩ e = []
    := by
  have hca : create_actions [(entry, s)] =
      [(entry, ⟨s.name, s.description, ⟨[], none⟩⟩)] := by
    simp [create_actions, hs]
  have hm : matchesAction e ⟨s.name, s.description, ⟨[], none⟩⟩ = false
    := rfl
  refine ⟨hca, hm, ?_⟩
  simp [on_key_press, hca, hm]

/-- C10 witness: the theorem at a concrete sequence-less action and a
concrete key event. -/
theorem C10_witness :
    (⟨"save", "d", none⟩ : ActionSetting).sequence = none ∧
    (create_actions [("save", ⟨"save", "d", none⟩)] =
      [("save", ⟨"save", "d", ⟨[], none⟩⟩)]
    ∧ matchesAction ⟨"s", []⟩ ⟨"save", "d", ⟨[], none⟩⟩ = false
    ∧ on_key_press
        ⟨create_actions [("save", ⟨"save", "d", none⟩)],
         ["save_action"], [⟨"console_view", ["save_action"]⟩]⟩
        ⟨"s", []⟩ = []) :=
  ⟨rfl, C10_sequenceless_action "save" ⟨"save", "d", none⟩
    ["save_action"] [⟨"console_view", ["save_action"]⟩] ⟨"s", []⟩ rfl⟩

end ColourAnalysis
